import Mathlib

/-!
Shallow embedding of the `uas-dpa` personal-finance API (`src/app.py`): a
Flask-RESTful CRUD service over three tables (Transaction, Category, User)
with bcrypt password hashing and JWT bearer auth.

The persistence store is modelled as explicit state (`Store`) threaded through
the handlers.  Each handler is a Lean function from the persisted store and the
parsed request arguments to a response together with the store as persisted
after the request (i.e. after `db.session.commit()`; when a handler returns
without committing, the request-scoped session is rolled back at teardown, so
the store is returned unchanged).  JWT verification happens before any handler
body runs; the handler functions model the behaviour after a valid token has
been presented.  bcrypt's `generate_password_hash` / `check_password_hash` are
nondeterministic (salted), so they are parameters of the register/login models.

Python `float` amounts pass through the handlers without arithmetic, so the
amount column is modelled as `ℚ`.
-/

namespace UasDpa

/-! ## Dates

`app.py` validates the `date` field with
`datetime.datetime.strptime(date_str, '%Y-%m-%d').date()` and renders stored
dates with `date.strftime('%Y-%m-%d')`. -/

/-- A calendar date as stored in the `date` column of `Transaction`. -/
structure Date where
  year : Nat
  month : Nat
  day : Nat
deriving DecidableEq, Repr

/-- Gregorian leap-year rule, as used by `datetime` for day-of-month validation. -/
def isLeapYear (y : Nat) : Bool :=
  y % 4 == 0 && (y % 100 != 0 || y % 400 == 0)

/-- Number of days in month `m` of year `y` (`datetime`'s calendar). -/
def daysInMonth (y m : Nat) : Nat :=
  if m == 2 then (if isLeapYear y then 29 else 28)
  else if m == 4 || m == 6 || m == 9 || m == 11 then 30
  else 31

/-- ASCII decimal digit test (`\d` of the `_strptime` regexes, ASCII range). -/
def isDigitChar (c : Char) : Bool :=
  48 ≤ c.toNat && c.toNat ≤ 57

/-- Numeric value of an ASCII digit character. -/
def digitVal (c : Char) : Nat := c.toNat - 48

/-- Decimal number denoted by a list of digit characters (most significant first). -/
def readNatChars (cs : List Char) : Nat :=
  cs.foldl (fun a c => 10 * a + digitVal c) 0

/-- Build a date from the year/month/day digit groups matched by the
`'%Y-%m-%d'` pattern: all characters must be digits, the month must be 1–12,
the day 1–`daysInMonth`, and the year at least `datetime.MINYEAR = 1`
(`datetime.datetime(...)` raises `ValueError` otherwise). -/
def mkDate (ycs mcs dcs : List Char) : Option Date :=
  if ((ycs ++ mcs ++ dcs).all isDigitChar) then
    let y := readNatChars ycs
    let m := readNatChars mcs
    let d := readNatChars dcs
    if 1 ≤ y ∧ 1 ≤ m ∧ m ≤ 12 ∧ 1 ≤ d ∧ d ≤ daysInMonth y m then
      some ⟨y, m, d⟩
    else none
  else none

/-- `datetime.datetime.strptime(s, '%Y-%m-%d').date()`.

CPython's `_strptime` compiles `'%Y-%m-%d'` to the regex
`(?P<Y>\d\d\d\d)-(?P<m>1[0-2]|0[1-9]|[1-9])-(?P<d>3[01]|[12]\d|0[1-9]|[1-9])`,
requires it to consume the whole input, and then builds a `datetime`, which
validates the day against the calendar.  So: exactly four year digits, one or
two month digits (value 1–12), one or two day digits, calendar-checked. -/
def strptimeYMD (s : String) : Option Date :=
  match s.toList with
  | [y1, y2, y3, y4, '-', m1, '-', d1] => mkDate [y1, y2, y3, y4] [m1] [d1]
  | [y1, y2, y3, y4, '-', m1, '-', d1, d2] => mkDate [y1, y2, y3, y4] [m1] [d1, d2]
  | [y1, y2, y3, y4, '-', m1, m2, '-', d1] => mkDate [y1, y2, y3, y4] [m1, m2] [d1]
  | [y1, y2, y3, y4, '-', m1, m2, '-', d1, d2] => mkDate [y1, y2, y3, y4] [m1, m2] [d1, d2]
  | _ => none

/-- The character for a decimal digit `k < 10`. -/
def decChar (k : Nat) : Char :=
  if k = 0 then '0' else if k = 1 then '1' else if k = 2 then '2'
  else if k = 3 then '3' else if k = 4 then '4' else if k = 5 then '5'
  else if k = 6 then '6' else if k = 7 then '7' else if k = 8 then '8' else '9'

/-- A number rendered as exactly two digits, zero-padded (strftime `%m`, `%d`). -/
def pad2Chars (n : Nat) : List Char :=
  [decChar (n / 10 % 10), decChar (n % 10)]

/-- A number rendered as exactly four digits, zero-padded (strftime `%Y`,
per the `datetime.strftime` format-code table). -/
def pad4Chars (n : Nat) : List Char :=
  [decChar (n / 1000 % 10), decChar (n / 100 % 10), decChar (n / 10 % 10), decChar (n % 10)]

/-- `date.strftime('%Y-%m-%d')`. -/
def strftimeYMD (d : Date) : String :=
  String.mk (pad4Chars d.year ++ '-' :: (pad2Chars d.month ++ '-' :: pad2Chars d.day))

/-! ## Currency formatting

`GET /transactions` renders each amount with
`locale.currency(t.amount, grouping=True)` under the `id_ID` locale set at
startup: currency symbol `Rp` prefixed, thousands grouped by `.`, decimal
comma, two fraction digits (spec §8: stored `15000.0` → `"Rp15.000,00"`).
The scaling to hundredths is modelled with `⌊·⌋`; the theorems below only use
it on whole-cent amounts, where every rounding mode agrees. -/

/-- Render `n < 1000` with no leading zeros (the leading group of digits). -/
def base1000Chars (n : Nat) : List Char :=
  if n < 10 then [decChar n]
  else if n < 100 then [decChar (n / 10), decChar (n % 10)]
  else [decChar (n / 100), decChar (n / 10 % 10), decChar (n % 10)]

/-- A number rendered as exactly three digits, zero-padded (non-leading groups). -/
def pad3Chars (n : Nat) : List Char :=
  [decChar (n / 100 % 10), decChar (n / 10 % 10), decChar (n % 10)]

/-- Structural worker for the thousands grouping; the fuel argument only
bounds the recursion depth (any fuel at least `n` yields the grouping of
`n`, see `groupedCharsGo_irrel`). -/
def groupedCharsGo : Nat → Nat → List Char
  | 0, n => base1000Chars n
  | fuel + 1, n =>
    if n < 1000 then base1000Chars n
    else groupedCharsGo fuel (n / 1000) ++ '.' :: pad3Chars (n % 1000)

/-- The integer part of an amount, with thousands grouped by `'.'`
(`id_ID`'s `mon_thousands_sep`). -/
def groupedChars (n : Nat) : List Char := groupedCharsGo n n

/-- `locale.currency(a, grouping=True)` under `id_ID`. -/
def formatCurrency (a : ℚ) : String :=
  let cents : Int := ⌊a * 100⌋
  let body : Nat → String := fun t =>
    "Rp" ++ String.mk (groupedChars (t / 100)) ++ "," ++ String.mk (pad2Chars (t % 100))
  if cents < 0 then "-" ++ body (-cents).toNat else body cents.toNat

/-- Spec-side denotation of an `id_ID` currency string (spec §8 requires the
formatted list amount and the raw single-item amount to "reflect the same
underlying stored number"): strip the `Rp` symbol, drop the `.` thousands
separators from the part before the decimal comma, and read the two fraction
digits after it as hundredths. -/
def currencyValue (s : String) : Option ℚ :=
  let cs := s.toList
  if cs.take 2 = ['R', 'p'] then
    let rest := cs.drop 2
    let intChars := (rest.takeWhile (fun c => c ≠ ',')).filter (fun c => c ≠ '.')
    let rest2 := rest.dropWhile (fun c => c ≠ ',')
    if rest2.take 1 = [','] then
      let frac := rest2.drop 1
      if frac.length = 2 ∧ frac.all isDigitChar ∧ intChars.all isDigitChar then
        some ((readNatChars intChars : ℚ) + (readNatChars frac : ℚ) / 100)
      else none
    else none
  else none

/-! ## Data model (`db.Model` classes) -/

/-- Row of the `transaction` table. -/
structure Transaction where
  id : Nat
  description : String
  amount : ℚ
  category_id : Int
  date : Date
deriving DecidableEq, Repr

/-- Row of the `category` table. -/
structure Category where
  id : Nat
  name : String
deriving DecidableEq, Repr

/-- Row of the `user` table; `password` holds the bcrypt hash. -/
structure User where
  id : Nat
  username : String
  password : String
deriving DecidableEq, Repr

/-- The persistence store (`finance.db`). -/
structure Store where
  transactions : List Transaction
  categories : List Category
  users : List User
deriving DecidableEq, Repr

/-- Largest id in use (0 when the table is empty). -/
def maxId (ids : List Nat) : Nat := ids.foldr max 0

/-- SQLite's autoincrement primary key for the next `transaction` row:
one more than the largest id in the table. -/
def freshTransactionId (db : Store) : Nat :=
  maxId (db.transactions.map (fun t => t.id)) + 1

/-- Autoincrement primary key for the next `category` row. -/
def freshCategoryId (db : Store) : Nat :=
  maxId (db.categories.map (fun c => c.id)) + 1

/-- Autoincrement primary key for the next `user` row. -/
def freshUserId (db : Store) : Nat :=
  maxId (db.users.map (fun u => u.id)) + 1

/-- `Transaction.query.get(i)` — primary-key lookup. -/
def findTransaction (db : Store) (i : Nat) : Option Transaction :=
  db.transactions.find? (fun t => t.id == i)

/-- `Category.query.get(i)`. -/
def findCategory (db : Store) (i : Nat) : Option Category :=
  db.categories.find? (fun c => c.id == i)

/-- `User.query.filter_by(username=u).first()`. -/
def findUserByUsername (db : Store) (u : String) : Option User :=
  db.users.find? (fun user => user.username == u)

/-! ## Request arguments (reqparse results)

`transaction_parser` requires `description : str`, `amount : float`,
`category_id : int`, `date : str`; presence/type failures 400 before the
handler body, so handlers always receive well-typed arguments.  Note the
parsers check only presence and type — the empty string is a valid `str`. -/

/-- Parsed body of a transaction POST/PUT. -/
structure TransactionArgs where
  description : String
  amount : ℚ
  category_id : Int
  date : String
deriving DecidableEq, Repr

/-- Parsed body of register/login. -/
structure Credentials where
  username : String
  password : String
deriving DecidableEq, Repr

/-- A message response with its HTTP status code. -/
structure MessageResponse where
  status : Nat
  message : String
deriving DecidableEq, Repr

/-! ## Transaction resource -/

/-- One element of the `GET /transactions` listing: `amount` is the
currency-formatted string, `date` the `YYYY-MM-DD` rendering. -/
structure TransactionListItem where
  id : Nat
  description : String
  amount : String
  category_id : Int
  date : String
deriving DecidableEq, Repr

/-- The JSON object returned by `GET /transactions/{id}`: `amount` is the raw
stored number. -/
structure TransactionJson where
  id : Nat
  description : String
  amount : ℚ
  category_id : Int
  date : String
deriving DecidableEq, Repr

/-- Response of `TransactionResource.get`. -/
inductive TransactionGetResponse where
  | item (status : Nat) (t : TransactionJson)
  | message (status : Nat) (msg : String)
  | listing (status : Nat) (items : List TransactionListItem)
deriving DecidableEq, Repr

/-- How `GET /transactions` renders one stored row. -/
def transactionListItemOf (t : Transaction) : TransactionListItem :=
  ⟨t.id, t.description, formatCurrency t.amount, t.category_id, strftimeYMD t.date⟩

/-- `TransactionResource.get`.  The route parameter defaults to `None`; the
handler branches on `if transaction_id:` — Python truthiness, so id `0` takes
the listing branch exactly like an absent id. -/
def transactionGet (db : Store) (transaction_id : Option Nat) : TransactionGetResponse :=
  let listAll : TransactionGetResponse :=
    .listing 200 (db.transactions.map transactionListItemOf)
  match transaction_id with
  | none => listAll
  | some i =>
    if i ≠ 0 then
      match findTransaction db i with
      | some t => .item 200 ⟨t.id, t.description, t.amount, t.category_id, strftimeYMD t.date⟩
      | none => .message 404 "Transaction not found"
    else listAll

/-- `TransactionResource.post`: validate the date, then insert and commit. -/
def transactionPost (db : Store) (args : TransactionArgs) : MessageResponse × Store :=
  match strptimeYMD args.date with
  | none => (⟨400, "Invalid date format. Please use YYYY-MM-DD format."⟩, db)
  | some d =>
    let t : Transaction :=
      ⟨freshTransactionId db, args.description, args.amount, args.category_id, d⟩
    (⟨201, "Transaction created successfully"⟩,
     { db with transactions := db.transactions ++ [t] })

/-- `TransactionResource.put`: 404 if the row is absent; otherwise the handler
assigns `description`, `amount` and `category_id` on the session object, then
validates the date.  On a malformed date it returns 400 *before*
`db.session.commit()`, so the request-scoped session (and with it the pending
field assignments) is rolled back at teardown: nothing is persisted.  On
success all four fields are committed. -/
def transactionPut (db : Store) (transaction_id : Nat) (args : TransactionArgs) :
    MessageResponse × Store :=
  match findTransaction db transaction_id with
  | none => (⟨404, "Transaction not found"⟩, db)
  | some _ =>
    match strptimeYMD args.date with
    | none => (⟨400, "Invalid date format. Please use YYYY-MM-DD format."⟩, db)
    | some d =>
      (⟨200, "Transaction updated successfully"⟩,
       { db with transactions := db.transactions.map (fun t =>
           if t.id = transaction_id then
             { t with description := args.description, amount := args.amount,
                      category_id := args.category_id, date := d }
           else t) })

/-- `TransactionResource.delete`: 404 if absent, else delete the row and commit. -/
def transactionDelete (db : Store) (transaction_id : Nat) : MessageResponse × Store :=
  match findTransaction db transaction_id with
  | none => (⟨404, "Transaction not found"⟩, db)
  | some _ =>
    (⟨200, "Transaction deleted successfully"⟩,
     { db with transactions := db.transactions.filter (fun t => t.id ≠ transaction_id) })

/-! ## Category resource -/

/-- Response of `CategoryResource.get`. -/
inductive CategoryGetResponse where
  | item (status : Nat) (id : Nat) (name : String)
  | message (status : Nat) (msg : String)
  | listing (status : Nat) (items : List (Nat × String))
deriving DecidableEq, Repr

/-- `CategoryResource.get` — same `if category_id:` truthiness branching. -/
def categoryGet (db : Store) (category_id : Option Nat) : CategoryGetResponse :=
  let listAll : CategoryGetResponse :=
    .listing 200 (db.categories.map (fun c => (c.id, c.name)))
  match category_id with
  | none => listAll
  | some i =>
    if i ≠ 0 then
      match findCategory db i with
      | some c => .item 200 c.id c.name
      | none => .message 404 "Category not found"
    else listAll

/-- `CategoryResource.post`: the parser requires only presence and `str` type
of `name`; every parsed body is inserted unconditionally. -/
def categoryPost (db : Store) (name : String) : MessageResponse × Store :=
  (⟨201, "Category created successfully"⟩,
   { db with categories := db.categories ++ [⟨freshCategoryId db, name⟩] })

/-- `CategoryResource.put`: 404 if absent, else overwrite `name` and commit. -/
def categoryPut (db : Store) (category_id : Nat) (name : String) :
    MessageResponse × Store :=
  match findCategory db category_id with
  | none => (⟨404, "Category not found"⟩, db)
  | some _ =>
    (⟨200, "Category updated successfully"⟩,
     { db with categories := db.categories.map (fun c =>
         if c.id = category_id then { c with name := name } else c) })

/-- `CategoryResource.delete`. -/
def categoryDelete (db : Store) (category_id : Nat) : MessageResponse × Store :=
  match findCategory db category_id with
  | none => (⟨404, "Category not found"⟩, db)
  | some _ =>
    (⟨200, "Category deleted successfully"⟩,
     { db with categories := db.categories.filter (fun c => c.id ≠ category_id) })

/-! ## Register and login resources

bcrypt hashing is salted and nondeterministic, so the hash generator and
checker are parameters: `gen` models `generate_password_hash` (composed with
the decode to `str` done implicitly on storage) and `check` models
`check_password_hash`. -/

/-- `RegisterResource.post`. -/
def registerPost (gen : String → String) (db : Store) (args : Credentials) :
    MessageResponse × Store :=
  match findUserByUsername db args.username with
  | some _ => (⟨400, "Username already exists"⟩, db)
  | none =>
    let user : User := ⟨freshUserId db, args.username, gen args.password⟩
    (⟨201, "User registered successfully"⟩, { db with users := db.users ++ [user] })

/-- Response of `LoginResource.post`: on success `create_access_token` is
called with `identity = user.id`. -/
inductive LoginResponse where
  | failure (status : Nat) (message : String)
  | success (status : Nat) (access_token_identity : Nat)
deriving DecidableEq, Repr

/-- `LoginResource.post`. -/
def loginPost (check : String → String → Bool) (db : Store) (args : Credentials) :
    LoginResponse :=
  match findUserByUsername db args.username with
  | none => .failure 401 "Invalid username or password"
  | some user =>
    if check user.password args.password then .success 200 user.id
    else .failure 401 "Invalid username or password"

/-- The empty store (`db.create_all()` on a fresh `finance.db`). -/
def emptyStore : Store := ⟨[], [], []⟩

/-- A concrete instantiation of the bcrypt hash parameter, used to exhibit
concrete runs: tags the password with a bcrypt-style prefix. -/
def toyHash (p : String) : String := "$2b$" ++ p

/-- The checker matching `toyHash`. -/
def toyCheck (h p : String) : Bool := h == toyHash p

/-! ## Helper lemmas about the store -/

theorem le_maxId_of_mem {l : List Nat} {a : Nat} (h : a ∈ l) : a ≤ maxId l := by
  induction l with
  | nil => cases h
  | cons b t ih =>
    simp only [maxId, List.foldr] at ih ⊢
    cases h with
    | head => exact le_max_left _ _
    | tail _ h => exact le_trans (ih h) (le_max_right _ _)

theorem ne_fresh_of_mem {ids : List Nat} {a : Nat} (h : a ∈ ids) : a ≠ maxId ids + 1 := by
  have := le_maxId_of_mem h
  omega

/-- Looking up the freshly inserted row finds exactly it. -/
theorem find?_append_singleton {α : Type} (p : α → Bool) (l : List α) (t : α)
    (hl : ∀ u ∈ l, ¬ p u = true) (ht : p t = true) :
    (l ++ [t]).find? p = some t := by
  rw [List.find?_append, List.find?_eq_none.mpr hl]
  simp [List.find?, ht]

theorem findTransaction_insert (db : Store) (t : Transaction)
    (ht : t.id = freshTransactionId db) :
    findTransaction { db with transactions := db.transactions ++ [t] } t.id = some t := by
  apply find?_append_singleton
  · intro u hu
    have : u.id ≠ freshTransactionId db :=
      ne_fresh_of_mem (List.mem_map_of_mem (fun v => v.id) hu)
    simp [ht]
    omega
  · simp

theorem findUser_insert (db : Store) (u : User)
    (habsent : findUserByUsername db u.username = none) :
    findUserByUsername { db with users := db.users ++ [u] } u.username = some u := by
  unfold findUserByUsername at habsent ⊢
  apply find?_append_singleton
  · exact fun v hv => List.find?_eq_none.mp habsent v hv
  · simp

/-- `find?` over an id-preserving map rewrites pointwise. -/
theorem find?_map_id_preserving {α : Type} (f : α → α) (idOf : α → Nat)
    (hf : ∀ u, idOf (f u) = idOf u) (l : List α) (i : Nat) :
    (l.map f).find? (fun u => idOf u == i) = (l.find? (fun u => idOf u == i)).map f := by
  induction l with
  | nil => rfl
  | cons b tl ih =>
    by_cases hb : idOf b == i
    · rw [List.map_cons,
        @List.find?_cons_of_pos _ (fun u => idOf u == i) (f b) (tl.map f) (by simpa [hf] using hb),
        @List.find?_cons_of_pos _ (fun u => idOf u == i) b tl hb]
      rfl
    · rw [List.map_cons,
        @List.find?_cons_of_neg _ (fun u => idOf u == i) (f b) (tl.map f) (by simpa [hf] using hb),
        @List.find?_cons_of_neg _ (fun u => idOf u == i) b tl hb]
      exact ih

/-- After filtering out an id, looking it up fails. -/
theorem find?_filter_ne {α : Type} (idOf : α → Nat) (l : List α) (i : Nat) :
    (l.filter (fun t => idOf t ≠ i)).find? (fun t => idOf t == i) = none := by
  apply List.find?_eq_none.mpr
  intro x hx
  have hne := (List.mem_filter.mp hx).2
  simp only [decide_eq_true_eq] at hne
  simp [hne]

theorem findTransaction_map_update (db : Store) (tid : Nat)
    (f : Transaction → Transaction) (hf : ∀ u, (f u).id = u.id) :
    findTransaction { db with transactions := db.transactions.map f } tid =
      (findTransaction db tid).map f := by
  unfold findTransaction
  exact find?_map_id_preserving f (fun u => u.id) hf db.transactions tid

theorem findCategory_map_update (db : Store) (cid : Nat)
    (f : Category → Category) (hf : ∀ u, (f u).id = u.id) :
    findCategory { db with categories := db.categories.map f } cid =
      (findCategory db cid).map f := by
  unfold findCategory
  exact find?_map_id_preserving f (fun u => u.id) hf db.categories cid

/-! ## Digit and currency-formatting lemmas -/

theorem isDigitChar_decChar (k : Nat) : isDigitChar (decChar k) = true := by
  unfold decChar
  split_ifs <;> decide

theorem decChar_ne_dot (k : Nat) : decChar k ≠ '.' := by
  unfold decChar
  split_ifs <;> decide

theorem decChar_ne_comma (k : Nat) : decChar k ≠ ',' := by
  unfold decChar
  split_ifs <;> decide

theorem digitVal_decChar (k : Nat) (h : k < 10) : digitVal (decChar k) = k := by
  interval_cases k <;> decide

theorem read_base1000 (k : Nat) (hk : k < 1000) : readNatChars (base1000Chars k) = k := by
  unfold readNatChars base1000Chars
  split_ifs with h1 h2
  · simp [digitVal_decChar _ h1]
  · simp [digitVal_decChar _ (show k / 10 < 10 by omega),
      digitVal_decChar _ (show k % 10 < 10 by omega)]
    omega
  · simp [digitVal_decChar _ (show k / 100 < 10 by omega),
      digitVal_decChar _ (show k / 10 % 10 < 10 by omega),
      digitVal_decChar _ (show k % 10 < 10 by omega)]
    omega

theorem read_pad3 (a k : Nat) (hk : k < 1000) :
    List.foldl (fun a c => 10 * a + digitVal c) a (pad3Chars k) = 1000 * a + k := by
  simp [pad3Chars, digitVal_decChar _ (show k / 100 % 10 < 10 by omega),
    digitVal_decChar _ (show k / 10 % 10 < 10 by omega),
    digitVal_decChar _ (show k % 10 < 10 by omega)]
  omega

theorem read_pad2 (k : Nat) (hk : k < 100) : readNatChars (pad2Chars k) = k := by
  unfold readNatChars
  simp [pad2Chars, digitVal_decChar _ (show k / 10 % 10 < 10 by omega),
    digitVal_decChar _ (show k % 10 < 10 by omega)]
  omega

theorem mem_base1000 (k : Nat) (c : Char) (hc : c ∈ base1000Chars k) :
    isDigitChar c = true ∧ c ≠ '.' ∧ c ≠ ',' := by
  unfold base1000Chars at hc
  split_ifs at hc <;> simp only [List.mem_cons, List.not_mem_nil, or_false] at hc <;>
    rcases hc with rfl | rfl | rfl <;>
    exact ⟨isDigitChar_decChar _, decChar_ne_dot _, decChar_ne_comma _⟩

theorem mem_pad3 (k : Nat) (c : Char) (hc : c ∈ pad3Chars k) :
    isDigitChar c = true ∧ c ≠ '.' ∧ c ≠ ',' := by
  simp only [pad3Chars, List.mem_cons, List.not_mem_nil, or_false] at hc
  rcases hc with rfl | rfl | rfl <;>
    exact ⟨isDigitChar_decChar _, decChar_ne_dot _, decChar_ne_comma _⟩

theorem mem_pad2 (k : Nat) (c : Char) (hc : c ∈ pad2Chars k) : isDigitChar c = true := by
  simp only [pad2Chars, List.mem_cons, List.not_mem_nil, or_false] at hc
  rcases hc with rfl | rfl <;> exact isDigitChar_decChar _

theorem groupedCharsGo_irrel (f₁ : Nat) : ∀ f₂ n, n ≤ f₁ → n ≤ f₂ →
    groupedCharsGo f₁ n = groupedCharsGo f₂ n := by
  induction f₁ with
  | zero =>
    intro f₂ n h1 h2
    have hn : n = 0 := by omega
    subst hn
    cases f₂ <;> simp [groupedCharsGo]
  | succ f ih =>
    intro f₂ n h1 h2
    by_cases hn : n < 1000
    · cases f₂ <;> simp [groupedCharsGo, hn]
    · have hf₂ : ∃ m, f₂ = m + 1 := ⟨f₂ - 1, by omega⟩
      rcases hf₂ with ⟨m, rfl⟩
      simp only [groupedCharsGo, if_neg hn]
      rw [ih m (n / 1000) (by omega) (by omega)]

/-- The recursion equation of the grouping. -/
theorem groupedChars_eq (n : Nat) :
    groupedChars n = if n < 1000 then base1000Chars n
      else groupedChars (n / 1000) ++ '.' :: pad3Chars (n % 1000) := by
  unfold groupedChars
  by_cases hn : n < 1000
  · rw [if_pos hn]
    cases n with
    | zero => rfl
    | succ m => simp [groupedCharsGo, hn]
  · rw [if_neg hn]
    have hn1 : ∃ m, n = m + 1 := ⟨n - 1, by omega⟩
    rcases hn1 with ⟨m, rfl⟩
    simp only [groupedCharsGo, if_neg hn]
    rw [groupedCharsGo_irrel m ((m + 1) / 1000) ((m + 1) / 1000) (by omega) (le_refl _)]

theorem mem_grouped (n : Nat) (c : Char) (hc : c ∈ groupedChars n) :
    (isDigitChar c = true ∧ c ≠ ',') ∨ c = '.' := by
  induction n using Nat.strong_induction_on with
  | _ n ih =>
    rw [groupedChars_eq] at hc
    split_ifs at hc with h
    · exact Or.inl ⟨(mem_base1000 n c hc).1, (mem_base1000 n c hc).2.2⟩
    · rcases List.mem_append.mp hc with h1 | h1
      · exact ih (n / 1000) (Nat.div_lt_self (by omega) (by omega)) h1
      · rcases List.mem_cons.mp h1 with rfl | h2
        · exact Or.inr rfl
        · exact Or.inl ⟨(mem_pad3 _ c h2).1, (mem_pad3 _ c h2).2.2⟩

/-- Reading the grouped rendering back (dots dropped) recovers the number. -/
theorem read_grouped (n : Nat) :
    readNatChars ((groupedChars n).filter (fun c => c ≠ '.')) = n := by
  induction n using Nat.strong_induction_on with
  | _ n ih =>
    rw [groupedChars_eq]
    split_ifs with h
    · rw [List.filter_eq_self.mpr (fun c hc => by
        simpa using (mem_base1000 n c hc).2.1)]
      exact read_base1000 n h
    · have hp3 : List.filter (fun c => decide (c ≠ '.')) (pad3Chars (n % 1000)) =
          pad3Chars (n % 1000) :=
        List.filter_eq_self.mpr (fun c hc => by simpa using (mem_pad3 _ c hc).2.1)
      have hfc : List.filter (fun c => decide (c ≠ '.')) ('.' :: pad3Chars (n % 1000)) =
          pad3Chars (n % 1000) := by
        rw [List.filter_cons, if_neg (by decide), hp3]
      rw [List.filter_append, hfc]
      unfold readNatChars
      rw [List.foldl_append]
      have hrec := ih (n / 1000) (Nat.div_lt_self (by omega) (by omega))
      unfold readNatChars at hrec
      rw [hrec, read_pad3 _ _ (by omega)]
      omega

/-- `takeWhile`/`dropWhile` split an append whose left part satisfies the
predicate and whose boundary element falsifies it. -/
theorem takeWhile_dropWhile_append {α : Type} (p : α → Bool) (l r : List α) (x : α)
    (hl : ∀ c ∈ l, p c = true) (hx : p x = false) :
    (l ++ x :: r).takeWhile p = l ∧ (l ++ x :: r).dropWhile p = x :: r := by
  induction l with
  | nil => simp [List.takeWhile_cons, List.dropWhile_cons, hx]
  | cons b t ih =>
    have hb : p b = true := hl b (by simp)
    have iht := ih (fun c hc => hl c (by simp [hc]))
    simp [List.takeWhile_cons, List.dropWhile_cons, hb, iht.1, iht.2]

/-- The list of characters of the currency rendering of a whole-cent,
non-negative amount. -/
theorem formatCurrency_toList (n : Nat) :
    (formatCurrency ((n : ℚ) / 100)).toList =
      'R' :: 'p' :: (groupedChars (n / 100) ++ ',' :: pad2Chars (n % 100)) := by
  have hfloor : ⌊((n : ℚ) / 100) * 100⌋ = (n : Int) := by
    rw [div_mul_cancel₀]
    · exact Int.floor_natCast n
    · norm_num
  unfold formatCurrency
  rw [hfloor]
  have hneg : ¬ ((n : Int) < 0) := by omega
  rw [if_neg hneg, Int.toNat_natCast]
  show (("Rp" ++ _ ++ "," ++ _ : String)).data = _
  simp [String.data_append]

/-- The currency string of a whole-cent non-negative amount denotes exactly
the stored number: the list representation and the raw representation agree. -/
theorem currencyValue_formatCurrency (n : Nat) :
    currencyValue (formatCurrency ((n : ℚ) / 100)) = some ((n : ℚ) / 100) := by
  have hsplit := takeWhile_dropWhile_append (fun c => decide (c ≠ ','))
    (groupedChars (n / 100)) (pad2Chars (n % 100)) ','
    (fun c hc => by
      rcases mem_grouped _ c hc with ⟨_, hne⟩ | rfl
      · simpa using hne
      · decide)
    (by decide)
  simp only [currencyValue]
  rw [formatCurrency_toList]
  simp only [List.take_succ_cons, List.take_zero, List.drop_succ_cons, List.drop_zero,
    eq_self_iff_true, if_true]
  rw [hsplit.1, hsplit.2]
  simp only [List.take_succ_cons, List.take_zero, List.drop_succ_cons, List.drop_zero,
    eq_self_iff_true, if_true]
  have hcond : (pad2Chars (n % 100)).length = 2 ∧
      (pad2Chars (n % 100)).all isDigitChar = true ∧
      ((groupedChars (n / 100)).filter (fun c => decide (c ≠ '.'))).all isDigitChar = true := by
    refine ⟨rfl, ?_, ?_⟩
    · exact List.all_eq_true.mpr (fun c hc => mem_pad2 _ c hc)
    · refine List.all_eq_true.mpr (fun c hc => ?_)
      have hm := List.mem_filter.mp hc
      rcases mem_grouped _ c hm.1 with ⟨hd, _⟩ | rfl
      · exact hd
      · simpa using hm.2
  rw [if_pos hcond, read_grouped, read_pad2 _ (by omega)]
  congr 1
  field_simp
  exact_mod_cast by omega

/-- The spec's worked example: stored `15000.0` is rendered `"Rp15.000,00"`. -/
theorem formatCurrency_15000 : formatCurrency 15000 = "Rp15.000,00" := by
  have he : (15000 : ℚ) = ((1500000 : Nat) : ℚ) / 100 := by norm_num
  rw [he]
  have hl := formatCurrency_toList 1500000
  have h2 : ('R' :: 'p' ::
      (groupedChars (1500000 / 100) ++ ',' :: pad2Chars (1500000 % 100))) =
      ("Rp15.000,00").toList := by decide
  exact String.ext (hl.trans h2)

/-! ## Claim theorems -/

/-- **C1.** For every valid transaction payload (with the date string in
canonical `YYYY-MM-DD` form, i.e. parsing to a calendar date whose rendering
is the string itself), `POST /transactions` returns 201 and a subsequent
`GET /transactions/{id}` on the created record's id returns a record whose
description, amount, category_id and date (as the `YYYY-MM-DD` string) equal
the posted input. -/
theorem transaction_post_then_get (db : Store) (desc : String) (amt : ℚ) (cid : Int)
    (ds : String) (d : Date)
    (hparse : strptimeYMD ds = some d) (hcanon : strftimeYMD d = ds) :
    (transactionPost db ⟨desc, amt, cid, ds⟩).1 = ⟨201, "Transaction created successfully"⟩ ∧
    transactionGet (transactionPost db ⟨desc, amt, cid, ds⟩).2 (some (freshTransactionId db)) =
      .item 200 ⟨freshTransactionId db, desc, amt, cid, ds⟩ := by
  have hfind := findTransaction_insert db ⟨freshTransactionId db, desc, amt, cid, d⟩ rfl
  have hfresh : freshTransactionId db ≠ 0 := by unfold freshTransactionId; omega
  constructor
  · simp [transactionPost, hparse]
  · simp [transactionPost, hparse, transactionGet, hfresh, hfind, hcanon]

/-- Witness for C1 at a concrete input. -/
theorem transaction_post_then_get_witness :
    (transactionPost emptyStore ⟨"makan siang", 15000, 1, "2024-03-05"⟩).1 =
      ⟨201, "Transaction created successfully"⟩ ∧
    transactionGet (transactionPost emptyStore ⟨"makan siang", 15000, 1, "2024-03-05"⟩).2
        (some (freshTransactionId emptyStore)) =
      .item 200 ⟨freshTransactionId emptyStore, "makan siang", 15000, 1, "2024-03-05"⟩ :=
  transaction_post_then_get emptyStore "makan siang" 15000 1 "2024-03-05" ⟨2024, 3, 5⟩
    (by decide) (by decide)

/-- **C5.** `POST /transactions` rejects a date string that does not parse as a
real `YYYY-MM-DD` calendar date with 400 and inserts nothing; every other
well-typed body is inserted and answered with 201. -/
theorem transaction_post_validates_date (db : Store) (args : TransactionArgs) :
    (strptimeYMD args.date = none →
      transactionPost db args =
        (⟨400, "Invalid date format. Please use YYYY-MM-DD format."⟩, db)) ∧
    (∀ d, strptimeYMD args.date = some d →
      transactionPost db args =
        (⟨201, "Transaction created successfully"⟩,
         { db with transactions := db.transactions ++
             [⟨freshTransactionId db, args.description, args.amount, args.category_id, d⟩] })) := by
  constructor
  · intro h
    simp [transactionPost, h]
  · intro d h
    simp [transactionPost, h]

/-- Witness for C5: month 13 is rejected with 400 and no insert; a valid date
is inserted with 201. -/
theorem transaction_post_validates_date_witness :
    transactionPost emptyStore ⟨"belanja", 15000, 1, "2024-13-01"⟩ =
      (⟨400, "Invalid date format. Please use YYYY-MM-DD format."⟩, emptyStore) ∧
    transactionPost emptyStore ⟨"belanja", 15000, 1, "2024-01-31"⟩ =
      (⟨201, "Transaction created successfully"⟩,
       { emptyStore with transactions := emptyStore.transactions ++
           [⟨freshTransactionId emptyStore, "belanja", 15000, 1, ⟨2024, 1, 31⟩⟩] }) :=
  ⟨(transaction_post_validates_date emptyStore ⟨"belanja", 15000, 1, "2024-13-01"⟩).1 (by decide),
   (transaction_post_validates_date emptyStore ⟨"belanja", 15000, 1, "2024-01-31"⟩).2
     ⟨2024, 1, 31⟩ (by decide)⟩

/-- **C6.** DELETE is idempotent in effect: deleting an existing transaction
returns 200 and removes it, a second DELETE on the same id returns 404 and
changes nothing; likewise for categories. -/
theorem delete_idempotent (db : Store) (tid cid : Nat) (t : Transaction) (c : Category)
    (ht : findTransaction db tid = some t) (hc : findCategory db cid = some c) :
    (transactionDelete db tid).1 = ⟨200, "Transaction deleted successfully"⟩ ∧
    findTransaction (transactionDelete db tid).2 tid = none ∧
    transactionDelete (transactionDelete db tid).2 tid =
      (⟨404, "Transaction not found"⟩, (transactionDelete db tid).2) ∧
    (categoryDelete db cid).1 = ⟨200, "Category deleted successfully"⟩ ∧
    findCategory (categoryDelete db cid).2 cid = none ∧
    categoryDelete (categoryDelete db cid).2 cid =
      (⟨404, "Category not found"⟩, (categoryDelete db cid).2) := by
  have h1 : findTransaction (transactionDelete db tid).2 tid = none := by
    simp only [transactionDelete, ht]
    exact find?_filter_ne (fun t => t.id) db.transactions tid
  have h2 : findCategory (categoryDelete db cid).2 cid = none := by
    simp only [categoryDelete, hc]
    exact find?_filter_ne (fun c => c.id) db.categories cid
  refine ⟨by simp [transactionDelete, ht], h1, ?_, by simp [categoryDelete, hc], h2, ?_⟩
  · generalize hdb1 : (transactionDelete db tid).2 = db1 at h1 ⊢
    simp [transactionDelete, h1]
  · generalize hdb2 : (categoryDelete db cid).2 = db2 at h2 ⊢
    simp [categoryDelete, h2]

/-- Witness for C6 at a concrete one-row store. -/
theorem delete_idempotent_witness :
    transactionDelete
        (transactionDelete ⟨[⟨1, "a", 5, 1, ⟨2024, 1, 1⟩⟩], [⟨1, "makanan"⟩], []⟩ 1).2 1 =
      (⟨404, "Transaction not found"⟩,
       (transactionDelete ⟨[⟨1, "a", 5, 1, ⟨2024, 1, 1⟩⟩], [⟨1, "makanan"⟩], []⟩ 1).2) ∧
    categoryDelete
        (categoryDelete ⟨[⟨1, "a", 5, 1, ⟨2024, 1, 1⟩⟩], [⟨1, "makanan"⟩], []⟩ 1).2 1 =
      (⟨404, "Category not found"⟩,
       (categoryDelete ⟨[⟨1, "a", 5, 1, ⟨2024, 1, 1⟩⟩], [⟨1, "makanan"⟩], []⟩ 1).2) :=
  ⟨(delete_idempotent ⟨[⟨1, "a", 5, 1, ⟨2024, 1, 1⟩⟩], [⟨1, "makanan"⟩], []⟩ 1 1
      ⟨1, "a", 5, 1, ⟨2024, 1, 1⟩⟩ ⟨1, "makanan"⟩ (by decide) (by decide)).2.2.1,
   (delete_idempotent ⟨[⟨1, "a", 5, 1, ⟨2024, 1, 1⟩⟩], [⟨1, "makanan"⟩], []⟩ 1 1
      ⟨1, "a", 5, 1, ⟨2024, 1, 1⟩⟩ ⟨1, "makanan"⟩ (by decide) (by decide)).2.2.2.2.2⟩

/-- **C7.** `GET /transactions` renders each stored amount as the `id_ID`
currency string (grouped thousands) while `GET /transactions/{id}` returns the
raw stored number; the two representations denote the same underlying stored
amount — for whole-cent amounts the currency string decodes back to exactly
the stored value, e.g. stored `15000` appears as `"Rp15.000,00"` in the list
and as `15000` in the single-item response. -/
theorem transaction_amount_representations (db : Store) (t : Transaction)
    (hfind : findTransaction db t.id = some t) (h0 : t.id ≠ 0) :
    transactionGet db none = .listing 200 (db.transactions.map transactionListItemOf) ∧
    transactionListItemOf t ∈ db.transactions.map transactionListItemOf ∧
    (transactionListItemOf t).amount = formatCurrency t.amount ∧
    transactionGet db (some t.id) =
      .item 200 ⟨t.id, t.description, t.amount, t.category_id, strftimeYMD t.date⟩ ∧
    (∀ n : Nat, currencyValue (formatCurrency ((n : ℚ) / 100)) = some ((n : ℚ) / 100)) ∧
    formatCurrency 15000 = "Rp15.000,00" := by
  refine ⟨rfl, ?_, rfl, ?_, currencyValue_formatCurrency, formatCurrency_15000⟩
  · exact List.mem_map_of_mem _ (List.mem_of_find?_eq_some hfind)
  · simp [transactionGet, h0, hfind]

/-- Witness for C7 at a one-row store holding amount 15000. -/
theorem transaction_amount_representations_witness :
    transactionGet ⟨[⟨1, "gaji", 15000, 1, ⟨2024, 1, 31⟩⟩], [], []⟩ none =
      .listing 200 [⟨1, "gaji", "Rp15.000,00", 1, "2024-01-31"⟩] ∧
    transactionGet ⟨[⟨1, "gaji", 15000, 1, ⟨2024, 1, 31⟩⟩], [], []⟩ (some 1) =
      .item 200 ⟨1, "gaji", 15000, 1, "2024-01-31"⟩ ∧
    currencyValue (formatCurrency ((1500000 : ℚ) / 100)) = some ((1500000 : ℚ) / 100) := by
  have h := transaction_amount_representations ⟨[⟨1, "gaji", 15000, 1, ⟨2024, 1, 31⟩⟩], [], []⟩
    ⟨1, "gaji", 15000, 1, ⟨2024, 1, 31⟩⟩ (by decide) (by decide)
  have hdate : strftimeYMD ⟨2024, 1, 31⟩ = "2024-01-31" := by decide
  refine ⟨?_, ?_, h.2.2.2.2.1 1500000⟩
  · simpa [transactionListItemOf, formatCurrency_15000, hdate] using h.1
  · simpa [hdate] using h.2.2.2.1

/-- **C9.** `POST /transactions` checks no referential integrity: a body with
a valid date succeeds with 201 even when no stored category has the posted
`category_id`, so a transaction with a dangling `category_id` is created. -/
theorem transaction_post_dangling_category (db : Store) (args : TransactionArgs) (d : Date)
    (hd : strptimeYMD args.date = some d)
    (hdangling : ∀ c ∈ db.categories, (c.id : Int) ≠ args.category_id) :
    (transactionPost db args).1 = ⟨201, "Transaction created successfully"⟩ ∧
    ∃ t ∈ (transactionPost db args).2.transactions,
      t.category_id = args.category_id ∧
      ∀ c ∈ (transactionPost db args).2.categories, (c.id : Int) ≠ t.category_id := by
  refine ⟨by simp [transactionPost, hd], ?_⟩
  refine ⟨⟨freshTransactionId db, args.description, args.amount, args.category_id, d⟩,
    ?_, rfl, ?_⟩
  · simp [transactionPost, hd]
  · intro c hcmem
    simp only [transactionPost, hd] at hcmem
    exact hdangling c hcmem

/-- Witness for C9: a transaction referencing category 7 is created although
the store has no category 7. -/
theorem transaction_post_dangling_category_witness :
    (transactionPost emptyStore ⟨"ojek", 25000, 7, "2024-06-01"⟩).1 =
      ⟨201, "Transaction created successfully"⟩ :=
  (transaction_post_dangling_category emptyStore ⟨"ojek", 25000, 7, "2024-06-01"⟩
    ⟨2024, 6, 1⟩ (by decide) (by intro c hc; cases hc)).1

/-- **C2.** On an existing id, `PUT /transactions/{id}` with a well-typed body
whose date string is malformed returns 400 and the persisted transaction keeps
all four prior field values (the handler returns before `commit`, so the
session's pending assignments are rolled back at teardown); with a valid date
all four mutable fields are overwritten — the update is atomic. -/
theorem transaction_put_atomic (db : Store) (tid : Nat) (t : Transaction)
    (args : TransactionArgs) (hfind : findTransaction db tid = some t) :
    (strptimeYMD args.date = none →
      transactionPut db tid args =
        (⟨400, "Invalid date format. Please use YYYY-MM-DD format."⟩, db)) ∧
    (∀ d, strptimeYMD args.date = some d →
      (transactionPut db tid args).1 = ⟨200, "Transaction updated successfully"⟩ ∧
      findTransaction (transactionPut db tid args).2 tid =
        some ⟨t.id, args.description, args.amount, args.category_id, d⟩) := by
  constructor
  · intro h
    simp [transactionPut, hfind, h]
  · intro d h
    have htid : t.id = tid := by simpa using List.find?_some hfind
    refine ⟨by simp [transactionPut, hfind, h], ?_⟩
    have hmap := findTransaction_map_update db tid
      (fun u => if u.id = tid then
        { u with description := args.description, amount := args.amount,
                 category_id := args.category_id, date := d }
        else u)
      (by intro u; by_cases hu : u.id = tid <;> simp [hu])
    simp only [transactionPut, hfind, h]
    rw [hmap, hfind]
    simp [htid]

/-- Witness for C2: PUT with the malformed date `2024-02-30` on an existing
row returns 400 and leaves the store unchanged; PUT with a valid date
overwrites all four fields. -/
theorem transaction_put_atomic_witness :
    transactionPut ⟨[⟨1, "a", 5, 1, ⟨2024, 1, 1⟩⟩], [], []⟩ 1 ⟨"b", 9, 2, "2024-02-30"⟩ =
      (⟨400, "Invalid date format. Please use YYYY-MM-DD format."⟩,
       ⟨[⟨1, "a", 5, 1, ⟨2024, 1, 1⟩⟩], [], []⟩) ∧
    findTransaction
        (transactionPut ⟨[⟨1, "a", 5, 1, ⟨2024, 1, 1⟩⟩], [], []⟩ 1
          ⟨"b", 9, 2, "2024-06-02"⟩).2 1 =
      some ⟨1, "b", 9, 2, ⟨2024, 6, 2⟩⟩ :=
  ⟨(transaction_put_atomic ⟨[⟨1, "a", 5, 1, ⟨2024, 1, 1⟩⟩], [], []⟩ 1
      ⟨1, "a", 5, 1, ⟨2024, 1, 1⟩⟩ ⟨"b", 9, 2, "2024-02-30"⟩ (by decide)).1 (by decide),
   ((transaction_put_atomic ⟨[⟨1, "a", 5, 1, ⟨2024, 1, 1⟩⟩], [], []⟩ 1
      ⟨1, "a", 5, 1, ⟨2024, 1, 1⟩⟩ ⟨"b", 9, 2, "2024-06-02"⟩ (by decide)).2
      ⟨2024, 6, 2⟩ (by decide)).2⟩

/-- **C3.** Login failure is uniform: an unknown username and a wrong password
for an existing username both yield 401 with the identical message
"Invalid username or password" (the response does not reveal which check
failed); correct credentials yield 200 with an access token carrying the
user's id. -/
theorem login_uniform_failure (check : String → String → Bool) (db : Store)
    (u p u2 p2 : String) (user : User)
    (habsent : findUserByUsername db u = none)
    (hpresent : findUserByUsername db u2 = some user)
    (hwrong : check user.password p2 = false) :
    loginPost check db ⟨u, p⟩ = .failure 401 "Invalid username or password" ∧
    loginPost check db ⟨u2, p2⟩ = .failure 401 "Invalid username or password" ∧
    loginPost check db ⟨u, p⟩ = loginPost check db ⟨u2, p2⟩ ∧
    (∀ pw, check user.password pw = true →
      loginPost check db ⟨u2, pw⟩ = .success 200 user.id) := by
  refine ⟨by simp [loginPost, habsent], by simp [loginPost, hpresent, hwrong], ?_, ?_⟩
  · simp [loginPost, habsent, hpresent, hwrong]
  · intro pw hpw
    simp [loginPost, hpresent, hpw]

/-- Witness for C3 at a concrete store with one registered user. -/
theorem login_uniform_failure_witness :
    loginPost toyCheck ⟨[], [], [⟨1, "alice", toyHash "rahasia"⟩]⟩ ⟨"bob", "apa"⟩ =
      loginPost toyCheck ⟨[], [], [⟨1, "alice", toyHash "rahasia"⟩]⟩ ⟨"alice", "salah"⟩ ∧
    loginPost toyCheck ⟨[], [], [⟨1, "alice", toyHash "rahasia"⟩]⟩ ⟨"alice", "rahasia"⟩ =
      .success 200 1 :=
  ⟨(login_uniform_failure toyCheck ⟨[], [], [⟨1, "alice", toyHash "rahasia"⟩]⟩
      "bob" "apa" "alice" "salah" ⟨1, "alice", toyHash "rahasia"⟩
      (by decide) (by decide) (by decide)).2.2.1,
   (login_uniform_failure toyCheck ⟨[], [], [⟨1, "alice", toyHash "rahasia"⟩]⟩
      "bob" "apa" "alice" "salah" ⟨1, "alice", toyHash "rahasia"⟩
      (by decide) (by decide) (by decide)).2.2.2 "rahasia" (by decide)⟩

/-- **C4.** The first registration of a username returns 201 and stores the
hash of the password — not the plaintext, for any hash function that alters
its input, as bcrypt does; a second registration of the same username (any
password) returns 400 and leaves the user table unchanged. -/
theorem register_twice (gen : String → String) (db : Store) (u p p2 : String)
    (habsent : findUserByUsername db u = none)
    (hhash : gen p ≠ p) :
    (registerPost gen db ⟨u, p⟩).1 = ⟨201, "User registered successfully"⟩ ∧
    (registerPost gen db ⟨u, p⟩).2.users = db.users ++ [⟨freshUserId db, u, gen p⟩] ∧
    (∃ usr, findUserByUsername (registerPost gen db ⟨u, p⟩).2 u = some usr ∧
      usr.password = gen p ∧ usr.password ≠ p) ∧
    registerPost gen (registerPost gen db ⟨u, p⟩).2 ⟨u, p2⟩ =
      (⟨400, "Username already exists"⟩, (registerPost gen db ⟨u, p⟩).2) := by
  have hins := findUser_insert db ⟨freshUserId db, u, gen p⟩ habsent
  refine ⟨by simp [registerPost, habsent], by simp [registerPost, habsent], ?_, ?_⟩
  · refine ⟨⟨freshUserId db, u, gen p⟩, ?_, rfl, hhash⟩
    simp only [registerPost, habsent]
    exact hins
  · generalize hdb1 : (registerPost gen db ⟨u, p⟩).2 = db1 at hins ⊢
    have : findUserByUsername db1 u = some ⟨freshUserId db, u, gen p⟩ := by
      rw [← hdb1]
      simp only [registerPost, habsent]
      exact hins
    simp [registerPost, this]

/-- Witness for C4 with the concrete hash stand-in. -/
theorem register_twice_witness :
    (registerPost toyHash emptyStore ⟨"alice", "pw"⟩).1 =
      ⟨201, "User registered successfully"⟩ ∧
    registerPost toyHash (registerPost toyHash emptyStore ⟨"alice", "pw"⟩).2
        ⟨"alice", "pw2"⟩ =
      (⟨400, "Username already exists"⟩,
       (registerPost toyHash emptyStore ⟨"alice", "pw"⟩).2) :=
  ⟨(register_twice toyHash emptyStore "alice" "pw" "pw2" (by decide) (by decide)).1,
   (register_twice toyHash emptyStore "alice" "pw" "pw2" (by decide) (by decide)).2.2.2⟩

/-- **C8 counterexample.** The claim "the Category endpoints never store a
category whose name is the empty string" is false: from the empty store,
`POST /categories` with `name = ""` returns 201 and stores a category with
the empty name (the parser checks only presence and `str` type). -/
theorem category_empty_name_stored :
    categoryPost emptyStore "" =
      (⟨201, "Category created successfully"⟩, ⟨[], [⟨1, ""⟩], []⟩) ∧
    ∃ c ∈ (categoryPost emptyStore "").2.categories, c.name = "" := by
  refine ⟨by decide, ⟨1, ""⟩, by decide, rfl⟩

/-- **C8 (amended).** The category endpoints enforce only presence and string
type of `name` and store the supplied string verbatim, the empty string
included: POST always inserts the given name with 201, and PUT on an existing
id always overwrites with the given name. -/
theorem category_name_stored_verbatim (db : Store) (nm : String) :
    categoryPost db nm =
      (⟨201, "Category created successfully"⟩,
       { db with categories := db.categories ++ [⟨freshCategoryId db, nm⟩] }) ∧
    (∀ cid c, findCategory db cid = some c →
      (categoryPut db cid nm).1 = ⟨200, "Category updated successfully"⟩ ∧
      findCategory (categoryPut db cid nm).2 cid = some ⟨c.id, nm⟩) := by
  refine ⟨rfl, ?_⟩
  intro cid c hfind
  have hcid : c.id = cid := by simpa using List.find?_some hfind
  refine ⟨by simp [categoryPut, hfind], ?_⟩
  have hmap := findCategory_map_update db cid
    (fun u => if u.id = cid then { u with name := nm } else u)
    (by intro u; by_cases hu : u.id = cid <;> simp [hu])
  simp only [categoryPut, hfind]
  rw [hmap, hfind]
  simp [hcid]

/-- Witness for the amended C8: PUT stores the empty name over an existing
category. -/
theorem category_name_stored_verbatim_witness :
    (categoryPut ⟨[], [⟨1, "makanan"⟩], []⟩ 1 "").1 =
      ⟨200, "Category updated successfully"⟩ ∧
    findCategory (categoryPut ⟨[], [⟨1, "makanan"⟩], []⟩ 1 "").2 1 = some ⟨1, ""⟩ :=
  (category_name_stored_verbatim ⟨[], [⟨1, "makanan"⟩], []⟩ "").2 1 ⟨1, "makanan"⟩ (by decide)

/-- **C10.** The single-item GET handlers branch on the truthiness of the id,
so id 0 behaves like an absent id: `GET /transactions/0` and `GET /categories/0`
return the full collection listings (transactions with currency-formatted
amounts), not a 404 single-item lookup. -/
theorem get_zero_id_returns_listing (db : Store) :
    transactionGet db (some 0) = transactionGet db none ∧
    transactionGet db (some 0) = .listing 200 (db.transactions.map transactionListItemOf) ∧
    categoryGet db (some 0) = categoryGet db none ∧
    categoryGet db (some 0) = .listing 200 (db.categories.map (fun c => (c.id, c.name))) :=
  ⟨rfl, rfl, rfl, rfl⟩

end UasDpa
